import Mathlib

/-!
Verification of the task-management bot's core algorithms:
the natural-language time parser (`src/utils/time_parser.py`),
the shift change detector (`src/services/shift_report_service.py`),
and the reminder scheduler's status classifier and tracking analyzer
(`src/services/scheduler.py`).

Python strings are modelled as `List Char` (ASCII-faithful for every string
the program manipulates); Python `datetime` objects are modelled as an
integer count of seconds since 1970-01-01T00:00:00 (the single fixed
timezone of the deployment), which supports exactly the operations the
source uses: timedelta addition, `replace(hour=..., minute=..., second=0,
microsecond=0)`, `weekday()`, `.hour`, and comparison.
-/

/-- Python strings, modelled as lists of characters. -/
abbrev Str := List Char

/-- Decimal digit test, as Python's `str.isdigit` behaves on ASCII: '0'-'9'. -/
def pyIsDigit (c : Char) : Bool := 48 ≤ c.toNat && c.toNat ≤ 57

/-- Whitespace test matching Python's `str.strip` default set (ASCII). -/
def pyIsSpace (c : Char) : Bool :=
  c.toNat = 32 || c.toNat = 9 || c.toNat = 10 || c.toNat = 13 || c.toNat = 11 || c.toNat = 12

/-- ASCII lower-casing of one character, as Python's `str.lower` acts on ASCII. -/
def pyLowerChar (c : Char) : Char :=
  if 65 ≤ c.toNat ∧ c.toNat ≤ 90 then Char.ofNat (c.toNat + 32) else c

/-- Python `str.lower` (ASCII fragment). -/
def pyLower (s : Str) : Str := s.map pyLowerChar

/-- Drop trailing characters satisfying `p` (helper for `strip`/`rstrip`). -/
def dropTrail (p : Char → Bool) (s : Str) : Str := (s.reverse.dropWhile p).reverse

/-- Python `str.strip()` with no argument: trim whitespace at both ends. -/
def pyStrip (s : Str) : Str := dropTrail pyIsSpace (s.dropWhile pyIsSpace)

/-- Python `str.rstrip(':')`: drop all trailing colons. -/
def pyRstripColon (s : Str) : Str := dropTrail (fun c => c == ':') s

/-- Test that `pre` is a prefix of `s` (Python `str.startswith`, regex literal match). -/
def isPrefixCh : Str → Str → Bool
  | [], _ => true
  | _ :: _, [] => false
  | p :: ps, c :: cs => p == c && isPrefixCh ps cs

/-- Python's substring containment `needle in hay`. -/
def containsSub (needle : Str) : Str → Bool
  | [] => needle.isEmpty
  | c :: cs => isPrefixCh needle (c :: cs) || containsSub needle cs

/-- Strip a literal prefix, returning the remainder on success. -/
def stripPrefixCh : Str → Str → Option Str
  | [], s => some s
  | _ :: _, [] => none
  | p :: ps, c :: cs => if p == c then stripPrefixCh ps cs else none

/-- Value of a decimal digit string (Python `int(...)` on a `\d+` group). -/
def digitsToNat (s : Str) : Nat := s.foldl (fun a c => 10 * a + (c.toNat - 48)) 0

/-- Remove every occurrence of character `c` (Python `str.replace(c, '')`). -/
def removeChar (c : Char) (s : Str) : Str := s.filter (fun x => !(x == c))

/-- Python `str.isdigit()`: non-empty and all digits. -/
def pyIsDigitStr (s : Str) : Bool := !s.isEmpty && s.all pyIsDigit

/-- Normalisation applied by `TimeParser.parse`: `time_str.lower().strip()`. -/
def pyNorm (s : Str) : Str := pyStrip (pyLower s)

/-! ### The datetime model -/

/-- A Python `datetime`, as seconds since 1970-01-01T00:00:00 in the fixed
deployment timezone (microseconds are zero everywhere the core touches them). -/
abbrev DateTime := Int

/-- Model of `t + timedelta(seconds=n)` (any integer multiple used below). -/
def addSecs (t : DateTime) (n : Int) : DateTime := t + n

/-- Model of `t + timedelta(days=k)`. -/
def addDays (t : DateTime) (k : Int) : DateTime := t + 86400 * k

/-- Midnight of the calendar day containing `t`. -/
def dayStart (t : DateTime) : DateTime := 86400 * (Int.fdiv t 86400)

/-- Model of `t.replace(hour=h, minute=m, second=0, microsecond=0)` for in-range
constants (the named-day branches only ever pass 9, 10, 14 or 18 o'clock). -/
def setHM (t : DateTime) (h m : Int) : DateTime := dayStart t + 3600 * h + 60 * m

/-- Model of `t.hour`. -/
def pyHour (t : DateTime) : Int := Int.fdiv (Int.emod t 86400) 3600

/-- Model of `t.weekday()`: Monday = 0 … Sunday = 6 (1970-01-01 was a Thursday). -/
def pyWeekday (t : DateTime) : Nat := (Int.emod (Int.fdiv t 86400 + 3) 7).toNat

/-- Days since 1970-01-01 of the Gregorian date y-m-d
(the standard days-from-civil computation). -/
def daysFromCivil (y m d : Int) : Int :=
  let y' : Int := if m ≤ 2 then y - 1 else y
  let era : Int := Int.fdiv y' 400
  let yoe : Int := y' - era * 400
  let mp : Int := if m > 2 then m - 3 else m + 9
  let doy : Int := Int.fdiv (153 * mp + 2) 5 + d - 1
  let doe : Int := yoe * 365 + Int.fdiv yoe 4 - Int.fdiv yoe 100 + doy
  era * 146097 + doe - 719468

/-- Build the datetime y-m-d h:mi:s. -/
def mkDT (y m d h mi s : Int) : DateTime :=
  86400 * daysFromCivil y m d + 3600 * h + 60 * mi + s

/-- Result of running a fragment of Python code: either a raised exception
(e.g. `ValueError` from `datetime.replace`) or a returned value. -/
inductive PyResult (α : Type) where
  | raised : PyResult α
  | ok : α → PyResult α
deriving DecidableEq, Repr

/-- Model of `t.replace(hour=h, minute=m, second=0, microsecond=0)` where `h` and `m`
come from user input: raises `ValueError` when out of range. -/
def pyReplaceHM (t : DateTime) (h m : Nat) : PyResult DateTime :=
  if h ≤ 23 ∧ m ≤ 59 then .ok (setHM t h m) else .raised

/-! ### TimeParser (`src/utils/time_parser.py`) -/

/-- One attempt of the regex `in (\d+) <unit>` at the current position: literal
`in `, then a maximal non-empty digit run (`\d+` is greedy and the following
pattern character is a space, so no backtracking into the run can succeed),
then a space and the unit word. Returns the captured integer. -/
def tryInUnit (unit : Str) (s : Str) : Option Nat :=
  match stripPrefixCh "in ".data s with
  | none => none
  | some s1 =>
    let ds := s1.takeWhile pyIsDigit
    if ds.isEmpty then none
    else if isPrefixCh (' ' :: unit) (s1.drop ds.length) then some (digitsToNat ds)
    else none

/-- Model of `re.search` of `in (\d+) <unit>(?:s)?`: leftmost matching position (the
trailing optional `s` cannot affect whether a position matches). -/
def searchInUnit (unit : Str) : Str → Option Nat
  | [] => none
  | c :: cs =>
    match tryInUnit unit (c :: cs) with
    | some n => some n
    | none => searchInUnit unit cs

/-- One attempt of `(\d+) <unit>(?:s)? from now` at the current position.
If the optional `s` is present but ` from now` does not follow it, the regex
backtracks to not consuming the `s`, which then also fails because a space
never equals `s`; so consuming a present `s` greedily is equivalent. -/
def tryFromNow (unit : Str) (s : Str) : Option Nat :=
  let ds := s.takeWhile pyIsDigit
  if ds.isEmpty then none
  else
    match stripPrefixCh (' ' :: unit) (s.drop ds.length) with
    | none => none
    | some s2 =>
      let s3 := match s2 with | 's' :: r => r | _ => s2
      if isPrefixCh " from now".data s3 then some (digitsToNat ds) else none

/-- Model of `re.search` of `(\d+) <unit>(?:s)? from now`. -/
def searchFromNow (unit : Str) : Str → Option Nat
  | [] => none
  | c :: cs =>
    match tryFromNow unit (c :: cs) with
    | some n => some n
    | none => searchFromNow unit cs

/-- Model of `TimeParser._parse_relative`: the eight relative-duration patterns in
source order, first match wins; a month is 30 days. -/
def parseRelative (t : Str) (ref : DateTime) : Option DateTime :=
  match searchInUnit "hour".data t with
  | some n => some (addSecs ref (3600 * n))
  | none =>
  match searchInUnit "minute".data t with
  | some n => some (addSecs ref (60 * n))
  | none =>
  match searchInUnit "day".data t with
  | some n => some (addSecs ref (86400 * n))
  | none =>
  match searchInUnit "week".data t with
  | some n => some (addSecs ref (604800 * n))
  | none =>
  match searchInUnit "month".data t with
  | some n => some (addSecs ref (86400 * (30 * n)))
  | none =>
  match searchFromNow "hour".data t with
  | some n => some (addSecs ref (3600 * n))
  | none =>
  match searchFromNow "minute".data t with
  | some n => some (addSecs ref (60 * n))
  | none =>
  match searchFromNow "day".data t with
  | some n => some (addSecs ref (86400 * n))
  | none => none

/-- The `days_ahead` computation of `_parse_specific_day`'s weekday branch:
distance to the named weekday, rolled a full week when zero or negative,
at 09:00. -/
def nextWeekdayTime (n : Nat) (ref : DateTime) : DateTime :=
  let da : Int := (n : Int) - (pyWeekday ref : Int)
  let da' : Int := if da ≤ 0 then da + 7 else da
  setHM (addDays ref da') 9 0

/-- The `weekdays` dict of `_parse_specific_day`, in insertion order. -/
def weekdayTable : List (Str × Nat) :=
  [("monday".data, 0), ("mon".data, 0),
   ("tuesday".data, 1), ("tue".data, 1), ("tues".data, 1),
   ("wednesday".data, 2), ("wed".data, 2),
   ("thursday".data, 3), ("thu".data, 3), ("thur".data, 3), ("thurs".data, 3),
   ("friday".data, 4), ("fri".data, 4),
   ("saturday".data, 5), ("sat".data, 5),
   ("sunday".data, 6), ("sun".data, 6)]

/-- First weekday name contained in the text (dict iteration order). -/
def findWeekday (t : Str) : Option Nat :=
  (weekdayTable.find? (fun p => containsSub p.1 t)).map (·.2)

/-- Model of `TimeParser._parse_specific_day`: substring checks in source order.
All `replace` calls here use in-range constant hours, so no `ValueError`
path exists in this function. -/
def parseSpecificDay (t : Str) (ref : DateTime) : Option DateTime :=
  if containsSub "today".data t then some (setHM ref 9 0)
  else if containsSub "tomorrow".data t || containsSub "tmrw".data t
          || containsSub "tom".data t then
    let tomorrow := addDays ref 1
    if containsSub "morning".data t then some (setHM tomorrow 9 0)
    else if containsSub "afternoon".data t then some (setHM tomorrow 14 0)
    else if containsSub "evening".data t || containsSub "night".data t then
      some (setHM tomorrow 18 0)
    else some (setHM tomorrow 9 0)
  else if containsSub "day after tomorrow".data t
          || containsSub "overmorrow".data t then
    some (setHM (addDays ref 2) 9 0)
  else if containsSub "next week".data t then some (setHM (addDays ref 7) 9 0)
  else if containsSub "weekend".data t then
    let dus : Int := Int.emod (5 - (pyWeekday ref : Int)) 7
    let dus' : Int := if dus = 0 ∧ pyHour ref > 12 then 7 else dus
    some (setHM (addDays ref dus') 10 0)
  else (findWeekday t).map (fun n => nextWeekdayTime n ref)

/-- Match `\s*(am|pm)` (or the same with the period optional) at the end of a
clock body; returns the minute group already decided by the caller. -/
def finishClock (reqPeriod : Bool) (minute : Nat) (s : Str) :
    Option (Nat × Option Bool) :=
  let s' := s.dropWhile pyIsSpace
  if isPrefixCh "am".data s' then some (minute, some false)
  else if isPrefixCh "pm".data s' then some (minute, some true)
  else if reqPeriod then none else some (minute, none)

/-- Match `(\d{2})?\s*(am|pm)[?]`: the optional two-digit minute group is
tried greedily, falling back to an empty group (minute 0, as the source reads
`group(2) or 0`). -/
def afterColon (reqPeriod : Bool) (s : Str) : Option (Nat × Option Bool) :=
  (match s with
   | d1 :: d2 :: rest =>
     if pyIsDigit d1 && pyIsDigit d2 then
       finishClock reqPeriod (digitsToNat [d1, d2]) rest
     else none
   | _ => none) <|>
  finishClock reqPeriod 0 s

/-- Match `:?(\d{2})?\s*(am|pm)[?]`: a present colon is consumed greedily,
with backtracking to the no-colon alternative. -/
def clockRest (reqPeriod : Bool) (s : Str) : Option (Nat × Option Bool) :=
  match s with
  | ':' :: rest => afterColon reqPeriod rest <|> afterColon reqPeriod (':' :: rest)
  | _ => afterColon reqPeriod s

/-- Match `(\d{1,2}):?(\d{2})?\s*(am|pm)[?]` at the current position:
the greedy one-or-two-digit hour group backtracks from two digits to one.
Returns (hour, minute, period) where the period flag is `true` for pm. -/
def clockBody (reqPeriod : Bool) (s : Str) : Option (Nat × Nat × Option Bool) :=
  (match s with
   | d1 :: d2 :: rest =>
     if pyIsDigit d1 && pyIsDigit d2 then
       (clockRest reqPeriod rest).map (fun r => (digitsToNat [d1, d2], r))
     else none
   | _ => none) <|>
  (match s with
   | d1 :: rest =>
     if pyIsDigit d1 then
       (clockRest reqPeriod rest).map (fun r => (digitsToNat [d1], r))
     else none
   | _ => none)

/-- Model of `re.search(r'at (\d{1,2}):?(\d{2})?\s*(am|pm)?', t)` (leftmost match). -/
def searchClockAt : Str → Option (Nat × Nat × Option Bool)
  | [] => none
  | c :: cs =>
    match (stripPrefixCh "at ".data (c :: cs)).bind (clockBody false) with
    | some x => some x
    | none => searchClockAt cs

/-- Model of `re.search(r'(\d{1,2}):?(\d{2})?\s*(am|pm)', t)` (leftmost match). -/
def searchClockBare : Str → Option (Nat × Nat × Option Bool)
  | [] => none
  | c :: cs =>
    match clockBody true (c :: cs) with
    | some x => some x
    | none => searchClockBare cs

/-- The 12-hour to 24-hour conversion both clock branches perform:
pm adds 12 unless the hour is 12; 12am becomes 0. -/
def adjustHour (h : Nat) (period : Option Bool) : Nat :=
  match period with
  | some true => if h ≠ 12 then h + 12 else h
  | some false => if h = 12 then 0 else h
  | none => h

/-- The "use today if the time has not passed, otherwise tomorrow" rule. -/
def rollForward (ref target : DateTime) : DateTime :=
  if target ≤ ref then addDays target 1 else target

/-- Model of `TimeParser._parse_time_of_day`: the `at H[:MM][am|pm]` regex, then the
bare `H[:MM]am|pm` regex; `datetime.replace` raises `ValueError` for an
out-of-range hour or minute, modelled by `PyResult.raised`. -/
def parseTimeOfDay (t : Str) (ref : DateTime) : PyResult (Option DateTime) :=
  match searchClockAt t with
  | some (h, m, per) =>
    match pyReplaceHM ref (adjustHour h per) m with
    | .raised => .raised
    | .ok target => .ok (some (rollForward ref target))
  | none =>
  match searchClockBare t with
  | some (h, m, per) =>
    match pyReplaceHM ref (adjustHour h per) m with
    | .raised => .raised
    | .ok target => .ok (some (rollForward ref target))
  | none => .ok none

/-- Model of `TimeParser._parse_combined`: re-run the named-day resolver, then override
its time of day with the `at ...` clock regex (no roll-forward rule). -/
def parseCombined (t : Str) (ref : DateTime) : PyResult (Option DateTime) :=
  match parseSpecificDay t ref with
  | none => .ok none
  | some day =>
    match searchClockAt t with
    | none => .ok none
    | some (h, m, per) =>
      match pyReplaceHM day (adjustHour h per) m with
      | .raised => .raised
      | .ok target => .ok (some target)

/-- Model of `TimeParser.parse` on an already lower-cased, stripped string: the four
pattern families in source order, returning on the first success; a raised
`ValueError` propagates out of `parse`, which has no handler. -/
def parseCore (t : Str) (ref : DateTime) : PyResult (Option DateTime) :=
  match parseRelative t ref with
  | some d => .ok (some d)
  | none =>
  match parseSpecificDay t ref with
  | some d => .ok (some d)
  | none =>
  match parseTimeOfDay t ref with
  | .raised => .raised
  | .ok (some d) => .ok (some d)
  | .ok none =>
  match parseCombined t ref with
  | .raised => .raised
  | .ok (some d) => .ok (some d)
  | .ok none => .ok none

/-- Model of `TimeParser.parse`: lower-case and strip the input, then try the four
families. -/
def parse (s : Str) (ref : DateTime) : PyResult (Option DateTime) :=
  parseCore (pyNorm s) ref

/-! ### ShiftReportService (`src/services/shift_report_service.py`) -/

/-- A sheet row: an ordered mapping from column name to cell value. -/
abbrev Row := List (Str × Str)

/-- Model of `row.get(col, "")`: first value bound to `col`, defaulting to empty. -/
def pyGet : Row → Str → Str
  | [], _ => []
  | (k, v) :: rest, col => if k = col then v else pyGet rest col

/-- The metadata column keywords shared by both services. -/
def METADATA_KEYWORDS : List Str :=
  ["deposit".data, "method".data, "bet".data, "type".data]

/-- The category-header keywords shared by both services. -/
def CATEGORY_KEYWORDS : List Str :=
  ["casino".data, "slots".data, "blackjack".data, "sports".data, "baccarat".data]

/-- The column loop of `ShiftReportService._get_customer_columns`: skip a
column whose lower-cased name contains a metadata keyword, whose lower-cased
name is (exactly) a category keyword, or whose cell value in this row,
stripped and lower-cased, is empty or contains `$`, `debit` or `etransfer`. -/
def customerColumnsLoop (row : Row) : List Str → List Str
  | [] => []
  | col :: rest =>
    let colLower := pyLower col
    if METADATA_KEYWORDS.any (fun kw => containsSub kw colLower) then
      customerColumnsLoop row rest
    else if CATEGORY_KEYWORDS.any (fun kw => colLower = kw) then
      customerColumnsLoop row rest
    else
      let colValue := pyLower (pyStrip (pyGet row col))
      if colValue.isEmpty
          || ["$".data, "debit".data, "etransfer".data].any
               (fun kw => containsSub kw colValue) then
        customerColumnsLoop row rest
      else col :: customerColumnsLoop row rest

/-- Model of `ShiftReportService._get_customer_columns`. -/
def getCustomerColumns (row : Row) : List Str :=
  if row.isEmpty then [] else customerColumnsLoop row (row.map (·.1))

/-- The scan of `ShiftReportService._get_sportsbook_name` over the first six
columns: skip metadata-named columns and metadata-looking values, return the
first remaining non-empty value, defaulting to `"Unknown"`. -/
def sportsbookNameLoop (row : Row) : List Str → Str
  | [] => "Unknown".data
  | col :: rest =>
    let value := pyStrip (pyGet row col)
    let colLower := pyLower col
    if METADATA_KEYWORDS.any (fun kw => containsSub kw colLower) then
      sportsbookNameLoop row rest
    else if ["$".data, "debit".data, "etransfer".data, "rfb".data,
             "lowhold".data].any (fun kw => containsSub kw (pyLower value)) then
      sportsbookNameLoop row rest
    else if !value.isEmpty then value
    else sportsbookNameLoop row rest

/-- Model of `ShiftReportService._get_sportsbook_name`. -/
def getSportsbookName (row : Row) : Str :=
  sportsbookNameLoop row ((row.map (·.1)).take 6)

/-- A detected cell change (the `change` dict of `_detect_changes`). -/
structure Change where
  sportsbook : Str
  customer : Str
  old_status : Str
  new_status : Str
deriving DecidableEq, Repr

/-- The `ChangeReport` buckets (`customers_updated` is a Python set,
modelled as a duplicate-free list in insertion order). -/
structure ChangeReport where
  completions : List Change := []
  vip_flags : List Change := []
  help_needed : List Change := []
  customers_updated : List Str := []
  all_changes : List Change := []
deriving DecidableEq, Repr

/-- The report a fresh `ChangeReport(...)` starts as. -/
def emptyReport : ChangeReport := {}

/-- Python `set.add` on the insertion-ordered list model. -/
def addSet (l : List Str) (x : Str) : List Str := if x ∈ l then l else l ++ [x]

/-- The per-customer body of `_detect_changes` (source lines 217-243): compare
the stripped, lower-cased baseline and current cells; on a difference mark the
customer updated, record the change, and bucket it by its new status. -/
def processCustomer (sportsbook : Str) (brow crow : Row) (rep : ChangeReport)
    (customer : Str) : ChangeReport :=
  let oldStatus := pyLower (pyStrip (pyGet brow customer))
  let newStatus := pyLower (pyStrip (pyGet crow customer))
  if oldStatus ≠ newStatus then
    let change : Change := ⟨sportsbook, customer, oldStatus, newStatus⟩
    { completions := rep.completions ++
        (if newStatus = "done".data ∨ newStatus = "complete".data then [change] else []),
      vip_flags := rep.vip_flags ++ (if newStatus = "vip".data then [change] else []),
      help_needed := rep.help_needed ++ (if newStatus = "help".data then [change] else []),
      customers_updated := addSet rep.customers_updated customer,
      all_changes := rep.all_changes ++ [change] }
  else rep

/-- The contribution of one matched baseline/current row pair: the customer
loop of `_detect_changes` folded over the customer columns. -/
def rowPairReport (sportsbook : Str) (customers : List Str) (brow crow : Row) :
    ChangeReport :=
  customers.foldl (processCustomer sportsbook brow crow) emptyReport

/-- Python dict assignment `d[k] = v`: replace in place or append at the end. -/
def upsert : List (Str × Row) → Str → Row → List (Str × Row)
  | [], k, v => [(k, v)]
  | (k', v') :: rest, k, v =>
    if k' = k then (k, v) :: rest else (k', v') :: upsert rest k v

/-- Python dict `get`. -/
def lookupRow : List (Str × Row) → Str → Option Row
  | [], _ => none
  | (k', v') :: rest, k => if k' = k then some v' else lookupRow rest k

/-- The `current_by_sportsbook` index of `_detect_changes` (rows whose
sportsbook is `"Unknown"` are not indexed; the last row with a name wins). -/
def buildCurrentLookup (current : List Row) : List (Str × Row) :=
  current.foldl (fun m row =>
    let sb := getSportsbookName row
    if !sb.isEmpty ∧ sb ≠ "Unknown".data then upsert m sb row else m) []

/-- The per-baseline-row step of `_detect_changes`: skip category-header rows
(lower-cased name, trailing colons stripped, equal to a category keyword),
look up the matching current row, and compare the customer columns. -/
def processBaselineRow (customers : List Str) (lookup : List (Str × Row))
    (rep : ChangeReport) (brow : Row) : ChangeReport :=
  let sportsbook := getSportsbookName brow
  let clean := pyStrip (pyRstripColon (pyLower sportsbook))
  if CATEGORY_KEYWORDS.any (fun kw => clean = kw) then rep
  else
    match lookupRow lookup sportsbook with
    | none => rep
    | some crow => customers.foldl (processCustomer sportsbook brow crow) rep

/-- Model of `ShiftReportService._detect_changes`: empty snapshots yield the empty
report; otherwise derive the customer columns from the baseline's first row,
index the current rows by sportsbook, and compare row by row. -/
def detectChanges (baseline current : List Row) : ChangeReport :=
  if baseline.isEmpty || current.isEmpty then emptyReport
  else
    match baseline with
    | [] => emptyReport
    | first :: _ =>
      let customers := getCustomerColumns first
      let lookup := buildCurrentLookup current
      baseline.foldl (processBaselineRow customers lookup) emptyReport

/-! ### ReminderScheduler (`src/services/scheduler.py`) -/

/-- Model of `ReminderScheduler._get_action_type` (the source's first test,
`if not status or status == ""`, is emptiness twice over). -/
def getActionType (status : Str) : Str :=
  if status.isEmpty then "signup".data
  else
    let sl := pyLower status
    if sl = "verify".data ∨ sl = "verifyfix".data then "verification".data
    else if sl = "deposit".data ∨ sl = "signed up ready".data then "deposit".data
    else if ["ready".data, "1k".data, "1000".data, "500".data, "2000".data,
             "2500".data, "3000".data, "5000".data].any (fun kw => sl = kw) then
      "wager".data
    else if pyIsDigitStr (removeChar ',' (removeChar '$' (removeChar 'k' sl))) then
      "wager".data
    else if containsSub "week".data sl then "progress".data
    else if sl = "vip".data then "vip".data
    else "other".data

/-- The customer-column derivation of `_analyze_tracking_data`: name-based
only; category names are excluded by equality or by prefix. -/
def schedCustomerColumns : List Str → List Str
  | [] => []
  | col :: rest =>
    let colLower := pyLower col
    if METADATA_KEYWORDS.any (fun kw => containsSub kw colLower) then
      schedCustomerColumns rest
    else if CATEGORY_KEYWORDS.any (fun kw => colLower = kw)
        || CATEGORY_KEYWORDS.any (fun kw => isPrefixCh kw colLower) then
      schedCustomerColumns rest
    else col :: schedCustomerColumns rest

/-- Accumulator of the sportsbook/deposit/method/bet-type extraction loop. -/
structure RowDetails where
  sportsbook : Option Str := none
  deposit : Str := []
  method : Str := []
  bet_type : Str := []
deriving DecidableEq, Repr

/-- The first-six-columns scan of `_analyze_tracking_data` (source lines
395-409); the column list comes from the snapshot's FIRST row even when
scanning later rows. -/
def extractDetails (row : Row) : List Str → RowDetails → RowDetails
  | [], st => st
  | col :: rest, st =>
    let value := pyStrip (pyGet row col)
    let colLower := pyLower col
    if value.isEmpty then extractDetails row rest st
    else if containsSub "deposit".data colLower && containsSub "$".data value then
      extractDetails row rest { st with deposit := value }
    else if containsSub "method".data colLower then
      extractDetails row rest { st with method := value }
    else if containsSub "bet".data colLower || containsSub "type".data colLower then
      extractDetails row rest { st with bet_type := value }
    else if st.sportsbook.isNone
        && !(["$".data, "debit".data, "etransfer".data, "rfb".data, "lowhold".data,
              "baccarat".data].any (fun kw => containsSub kw (pyLower value))) then
      extractDetails row rest { st with sportsbook := some value }
    else extractDetails row rest st

/-- One pending task recorded by the analyzer. -/
structure PendingTask where
  sportsbook : Str
  deposit : Str
  bet_type : Str
  status : Str
deriving DecidableEq, Repr

/-- The `tasks_by_customer` grouping: customer → action type → task list, insertion order. -/
abbrev TaskGroups := List (Str × List (Str × List PendingTask))

/-- Append a task under an action type (new keys go to the end). -/
def addTaskA : List (Str × List PendingTask) → Str → PendingTask → List (Str × List PendingTask)
  | [], a, t => [(a, [t])]
  | (a', ts) :: rest, a, t =>
    if a' = a then (a', ts ++ [t]) :: rest else (a', ts) :: addTaskA rest a t

/-- Append a task under a customer and action type (Python nested-dict
insertion: new keys at the end, tasks appended at the end of their list). -/
def addTaskC : TaskGroups → Str → Str → PendingTask → TaskGroups
  | [], c, a, t => [(c, [(a, [t])])]
  | (c', l) :: rest, c, a, t =>
    if c' = c then (c', addTaskA l a t) :: rest else (c', l) :: addTaskC rest c a t

/-- All tasks recorded under one customer. -/
def allTasksA (l : List (Str × List PendingTask)) : List PendingTask := l.flatMap (fun q => q.2)

/-- Every task anywhere in the grouping, under any customer and action type. -/
def allTasks (m : TaskGroups) : List PendingTask := m.flatMap (fun p => allTasksA p.2)

/-- The tail of `_analyze_tracking_data`'s per-row body, given the extracted
row details: skip rows without a sportsbook (`if not sportsbook`) and
category-header rows, then record each customer's non-terminal status under
its action type. -/
def analyzeRowDetails (customers : List Str) (row : Row) (det : RowDetails)
    (m : TaskGroups) : TaskGroups :=
  match det.sportsbook with
  | none => m
  | some sb =>
    if sb.isEmpty then m
    else
      let clean := pyStrip (pyRstripColon (pyLower sb))
      if CATEGORY_KEYWORDS.any (fun kw => clean = kw)
          || CATEGORY_KEYWORDS.any (fun kw => isPrefixCh kw clean) then m
      else
        customers.foldl (fun m' customer =>
          let status := pyStrip (pyGet row customer)
          if pyLower status = "complete".data ∨ pyLower status = "done".data then m'
          else addTaskC m' customer (getActionType status)
                 ⟨sb, det.deposit, det.bet_type, status⟩) m

/-- The per-row body of `_analyze_tracking_data`: extract the row's details
from the first six header columns, then process the row's statuses. -/
def analyzeRow (allCols : List Str) (customers : List Str) (m : TaskGroups)
    (row : Row) : TaskGroups :=
  analyzeRowDetails customers row (extractDetails row (allCols.take 6) {}) m

/-- Model of `ReminderScheduler._analyze_tracking_data`. -/
def analyzeTrackingData (data : List Row) : TaskGroups :=
  match data with
  | [] => []
  | first :: _ =>
    let allCols := first.map (·.1)
    let customers := schedCustomerColumns allCols
    data.foldl (analyzeRow allCols customers) []

/-! ### Specification-side definitions, for the refinement claims -/

/-- The subject-column rule as claim C2 words it: exclude columns by NAME
only — metadata-keyword containment, or category-keyword equality or prefix —
regardless of what the first row's cells hold. -/
def claimedCustomerColumns (row : Row) : List Str :=
  (row.map (·.1)).filter (fun col =>
    let colLower := pyLower col
    !(METADATA_KEYWORDS.any (fun kw => containsSub kw colLower))
    && !(CATEGORY_KEYWORDS.any (fun kw => colLower == kw || isPrefixCh kw colLower)))

/-- The amended subject-column predicate: the column's lower-cased name
contains no metadata keyword and equals no category keyword (exact equality
only), and the first row's cell value for it, stripped and lower-cased, is
non-empty and contains none of `$`, `debit`, `etransfer`. -/
def amendedKeep (row : Row) (col : Str) : Bool :=
  let colLower := pyLower col
  let colValue := pyLower (pyStrip (pyGet row col))
  !(METADATA_KEYWORDS.any (fun kw => containsSub kw colLower))
  && !(CATEGORY_KEYWORDS.any (fun kw => colLower = kw))
  && !(colValue.isEmpty
       || ["$".data, "debit".data, "etransfer".data].any
            (fun kw => containsSub kw colValue))

/-- The amended subject-column rule: every column of the first row satisfying
`amendedKeep`, in order. -/
def amendedCustomerColumns (row : Row) : List Str :=
  (row.map (·.1)).filter (amendedKeep row)

/-- Claim C7's description of `classify`, read over an already lower-cased,
trimmed status, with its fixed precedence of checks. -/
def classifySpec (s : Str) : Str :=
  if s.isEmpty then "signup".data
  else if s = "verify".data ∨ s = "verifyfix".data then "verification".data
  else if s = "deposit".data ∨ s = "signed up ready".data then "deposit".data
  else if s = "ready".data
      ∨ s ∈ ["1k".data, "1000".data, "500".data, "2000".data, "2500".data,
             "3000".data, "5000".data]
      ∨ pyIsDigitStr (removeChar ',' (removeChar '$' (removeChar 'k' s))) = true then
    "wager".data
  else if containsSub "week".data s then "progress".data
  else if s = "vip".data then "vip".data
  else "other".data

/-- The list of `ChangeRecord`s one matched row pair emits, in customer-column
order: one change per subject column whose stripped, lower-cased cells differ. -/
def rowChanges (sportsbook : Str) (customers : List Str) (brow crow : Row) :
    List Change :=
  customers.filterMap (fun customer =>
    let oldStatus := pyLower (pyStrip (pyGet brow customer))
    let newStatus := pyLower (pyStrip (pyGet crow customer))
    if oldStatus ≠ newStatus then some ⟨sportsbook, customer, oldStatus, newStatus⟩
    else none)

/-- The character of a single decimal digit. -/
def decDigitChar : Nat → Char
  | 0 => '0' | 1 => '1' | 2 => '2' | 3 => '3' | 4 => '4'
  | 5 => '5' | 6 => '6' | 7 => '7' | 8 => '8' | 9 => '9'
  | _ => '*'

/-- The decimal representation of a natural number, as the digit characters
of `Nat.digits` in most-significant-first order (and "0" for zero). -/
def natDecimal (n : Nat) : List Char :=
  if n = 0 then ['0'] else (Nat.digits 10 n).reverse.map decDigitChar

/-- A one-column baseline row used to exhibit concrete change reports. -/
def demoBaselineRow : Row := [("David".data, [])]

/-- The matching current row where David's cell became "vip". -/
def demoCurrentRow : Row := [("David".data, "vip".data)]

/-! ### General lemmas about the string model -/

set_option maxRecDepth 8192

theorem pyLowerChar_digit (c : Char) (h : pyIsDigit c = true) : pyLowerChar c = c := by
  simp only [pyIsDigit, Bool.and_eq_true, decide_eq_true_eq] at h
  unfold pyLowerChar
  rw [if_neg (by omega)]

theorem pyLower_digits (ds : Str) (h : ∀ c ∈ ds, pyIsDigit c = true) :
    pyLower ds = ds := by
  induction ds with
  | nil => rfl
  | cons c rest ih =>
    simp only [pyLower, List.map_cons]
    rw [pyLowerChar_digit c (h c (List.mem_cons_self _ _))]
    have := ih (fun c hc => h c (List.mem_cons_of_mem _ hc))
    simp only [pyLower] at this
    rw [this]

theorem pyLower_append (a b : Str) : pyLower (a ++ b) = pyLower a ++ pyLower b :=
  List.map_append _ _ _

theorem pyStrip_of_ends (c d : Char) (l : Str) (hc : pyIsSpace c = false)
    (hd : pyIsSpace d = false) :
    pyStrip (c :: (l ++ [d])) = c :: (l ++ [d]) := by
  unfold pyStrip dropTrail
  rw [List.dropWhile_cons_of_neg (by simp [hc])]
  have hrev : (c :: (l ++ [d])).reverse = d :: (l.reverse ++ [c]) := by
    simp
  rw [hrev, List.dropWhile_cons_of_neg (by simp [hd]), ← hrev, List.reverse_reverse]

theorem stripPrefixCh_in_ne (c : Char) (cs : Str) (h : c ≠ 'i') :
    stripPrefixCh "in ".data (c :: cs) = none := by
  have hbeq : (('i' : Char) == c) = false :=
    beq_eq_false_iff_ne.mpr (fun hh => h hh.symm)
  show (if ('i' == c) = true then stripPrefixCh ['n', ' '] cs else none) = none
  simp [hbeq]

theorem tryInUnit_cons_ne (u : Str) (c : Char) (cs : Str) (h : c ≠ 'i') :
    tryInUnit u (c :: cs) = none := by
  unfold tryInUnit
  rw [stripPrefixCh_in_ne c cs h]

theorem digit_ne_i (c : Char) (h : pyIsDigit c = true) : c ≠ 'i' := by
  simp only [pyIsDigit, Bool.and_eq_true, decide_eq_true_eq] at h
  intro hc
  subst hc
  simp at h

theorem searchInUnit_digits_skip (u ds rest : Str)
    (h : ∀ c ∈ ds, pyIsDigit c = true) :
    searchInUnit u (ds ++ rest) = searchInUnit u rest := by
  induction ds with
  | nil => rfl
  | cons c rest' ih =>
    simp only [List.cons_append, searchInUnit]
    rw [tryInUnit_cons_ne u c _ (digit_ne_i c (h c (List.mem_cons_self _ _)))]
    exact ih (fun x hx => h x (List.mem_cons_of_mem _ hx))

theorem takeWhile_digits (ds : Str) (x : Char) (tl : Str)
    (h : ∀ c ∈ ds, pyIsDigit c = true) (hx : pyIsDigit x = false) :
    (ds ++ (x :: tl)).takeWhile pyIsDigit = ds := by
  induction ds with
  | nil => simp [List.takeWhile_cons, hx]
  | cons c rest ih =>
    simp only [List.cons_append, List.takeWhile_cons, h c (List.mem_cons_self _ _)]
    rw [ih (fun y hy => h y (List.mem_cons_of_mem _ hy))]
    simp

theorem searchInUnit_at_head (u ds tl : Str) (hne : ds ≠ [])
    (hd : ∀ c ∈ ds, pyIsDigit c = true) :
    searchInUnit u ('i' :: 'n' :: ' ' :: (ds ++ (' ' :: tl)))
      = if isPrefixCh u tl then some (digitsToNat ds)
        else searchInUnit u (' ' :: tl) := by
  have hstrip : stripPrefixCh "in ".data ('i' :: 'n' :: ' ' :: (ds ++ (' ' :: tl)))
      = some (ds ++ (' ' :: tl)) := rfl
  have htake : (ds ++ (' ' :: tl)).takeWhile pyIsDigit = ds :=
    takeWhile_digits ds ' ' tl hd rfl
  have hdrop : (ds ++ (' ' :: tl)).drop ds.length = ' ' :: tl := List.drop_left ds _
  have htry : tryInUnit u ('i' :: 'n' :: ' ' :: (ds ++ (' ' :: tl)))
      = if isPrefixCh u tl then some (digitsToNat ds) else none := by
    unfold tryInUnit
    rw [hstrip]
    simp only [htake, hdrop]
    rw [if_neg (by simp [List.isEmpty_iff, hne])]
    have : isPrefixCh (' ' :: u) (' ' :: tl) = isPrefixCh u tl := by
      simp [isPrefixCh]
    rw [this]
  rw [searchInUnit, htry]
  by_cases hp : isPrefixCh u tl = true
  · rw [if_pos hp, if_pos hp]
  · rw [if_neg hp, if_neg hp]
    rw [searchInUnit, tryInUnit_cons_ne u 'n' _ (by decide)]
    rw [searchInUnit, tryInUnit_cons_ne u ' ' _ (by decide)]
    exact searchInUnit_digits_skip u ds (' ' :: tl) hd

/-! ### The relative-duration family on well-formed inputs -/

theorem parseRelative_hours (ds : Str) (hne : ds ≠ [])
    (hd : ∀ c ∈ ds, pyIsDigit c = true) (ref : DateTime) :
    parseRelative ("in ".data ++ ds ++ " hours".data) ref
      = some (addSecs ref (3600 * digitsToNat ds)) := by
  unfold parseRelative
  rw [show "in ".data ++ ds ++ " hours".data
      = 'i' :: 'n' :: ' ' :: (ds ++ (' ' :: "hours".data)) from by simp]
  rw [searchInUnit_at_head _ ds _ hne hd, if_pos (by decide)]

theorem parseRelative_minutes (ds : Str) (hne : ds ≠ [])
    (hd : ∀ c ∈ ds, pyIsDigit c = true) (ref : DateTime) :
    parseRelative ("in ".data ++ ds ++ " minutes".data) ref
      = some (addSecs ref (60 * digitsToNat ds)) := by
  unfold parseRelative
  rw [show "in ".data ++ ds ++ " minutes".data
      = 'i' :: 'n' :: ' ' :: (ds ++ (' ' :: "minutes".data)) from by simp]
  rw [searchInUnit_at_head "hour".data ds _ hne hd, if_neg (by decide),
    show searchInUnit "hour".data (' ' :: "minutes".data) = none from rfl]
  rw [searchInUnit_at_head "minute".data ds _ hne hd, if_pos (by decide)]

theorem parseRelative_days (ds : Str) (hne : ds ≠ [])
    (hd : ∀ c ∈ ds, pyIsDigit c = true) (ref : DateTime) :
    parseRelative ("in ".data ++ ds ++ " days".data) ref
      = some (addSecs ref (86400 * digitsToNat ds)) := by
  unfold parseRelative
  rw [show "in ".data ++ ds ++ " days".data
      = 'i' :: 'n' :: ' ' :: (ds ++ (' ' :: "days".data)) from by simp]
  rw [searchInUnit_at_head "hour".data ds _ hne hd, if_neg (by decide),
    show searchInUnit "hour".data (' ' :: "days".data) = none from rfl]
  rw [searchInUnit_at_head "minute".data ds _ hne hd, if_neg (by decide),
    show searchInUnit "minute".data (' ' :: "days".data) = none from rfl]
  rw [searchInUnit_at_head "day".data ds _ hne hd, if_pos (by decide)]

theorem parseRelative_weeks (ds : Str) (hne : ds ≠ [])
    (hd : ∀ c ∈ ds, pyIsDigit c = true) (ref : DateTime) :
    parseRelative ("in ".data ++ ds ++ " weeks".data) ref
      = some (addSecs ref (604800 * digitsToNat ds)) := by
  unfold parseRelative
  rw [show "in ".data ++ ds ++ " weeks".data
      = 'i' :: 'n' :: ' ' :: (ds ++ (' ' :: "weeks".data)) from by simp]
  rw [searchInUnit_at_head "hour".data ds _ hne hd, if_neg (by decide),
    show searchInUnit "hour".data (' ' :: "weeks".data) = none from rfl]
  rw [searchInUnit_at_head "minute".data ds _ hne hd, if_neg (by decide),
    show searchInUnit "minute".data (' ' :: "weeks".data) = none from rfl]
  rw [searchInUnit_at_head "day".data ds _ hne hd, if_neg (by decide),
    show searchInUnit "day".data (' ' :: "weeks".data) = none from rfl]
  rw [searchInUnit_at_head "week".data ds _ hne hd, if_pos (by decide)]

theorem parseRelative_months (ds : Str) (hne : ds ≠ [])
    (hd : ∀ c ∈ ds, pyIsDigit c = true) (ref : DateTime) :
    parseRelative ("in ".data ++ ds ++ " months".data) ref
      = some (addSecs ref (86400 * (30 * digitsToNat ds))) := by
  unfold parseRelative
  rw [show "in ".data ++ ds ++ " months".data
      = 'i' :: 'n' :: ' ' :: (ds ++ (' ' :: "months".data)) from by simp]
  rw [searchInUnit_at_head "hour".data ds _ hne hd, if_neg (by decide),
    show searchInUnit "hour".data (' ' :: "months".data) = none from rfl]
  rw [searchInUnit_at_head "minute".data ds _ hne hd, if_neg (by decide),
    show searchInUnit "minute".data (' ' :: "months".data) = none from rfl]
  rw [searchInUnit_at_head "day".data ds _ hne hd, if_neg (by decide),
    show searchInUnit "day".data (' ' :: "months".data) = none from rfl]
  rw [searchInUnit_at_head "week".data ds _ hne hd, if_neg (by decide),
    show searchInUnit "week".data (' ' :: "months".data) = none from rfl]
  rw [searchInUnit_at_head "month".data ds _ hne hd, if_pos (by decide)]

theorem pyNorm_in_shape (ds : Str) (hd : ∀ c ∈ ds, pyIsDigit c = true)
    (mid : Str) (d : Char) (hmid : pyLower (mid ++ [d]) = mid ++ [d])
    (hd2 : pyIsSpace d = false) :
    pyNorm ("in ".data ++ ds ++ (mid ++ [d])) = "in ".data ++ ds ++ (mid ++ [d]) := by
  unfold pyNorm
  rw [pyLower_append, pyLower_append, pyLower_digits ds hd, hmid,
    show pyLower "in ".data = "in ".data from rfl]
  rw [show "in ".data ++ ds ++ (mid ++ [d])
      = 'i' :: ((['n', ' '] ++ ds ++ mid) ++ [d]) from by simp]
  exact pyStrip_of_ends 'i' d _ rfl hd2

/-! ### Decimal representation round trip -/

theorem decDigitChar_toNat (d : Nat) (h : d < 10) : (decDigitChar d).toNat = 48 + d := by
  interval_cases d <;> decide

theorem decDigitChar_isDigit (d : Nat) (h : d < 10) :
    pyIsDigit (decDigitChar d) = true := by
  interval_cases d <;> decide

theorem natDecimal_digits (n : Nat) : ∀ c ∈ natDecimal n, pyIsDigit c = true := by
  unfold natDecimal
  split_ifs with h
  · intro c hc
    simp at hc
    subst hc
    decide
  · intro c hc
    simp only [List.mem_map, List.mem_reverse] at hc
    obtain ⟨d, hd, rfl⟩ := hc
    exact decDigitChar_isDigit d (Nat.digits_lt_base (by norm_num) hd)

theorem natDecimal_ne_nil (n : Nat) : natDecimal n ≠ [] := by
  unfold natDecimal
  split_ifs with h
  · simp
  · simp [Nat.digits_ne_nil_iff_ne_zero, h]

theorem foldl_digits_aux (L : List Nat) (hL : ∀ d ∈ L, d < 10) (a : Nat) :
    ((L.reverse.map decDigitChar)).foldl (fun acc c => 10 * acc + (c.toNat - 48)) a
      = a * 10 ^ L.length + Nat.ofDigits 10 L := by
  induction L generalizing a with
  | nil => simp
  | cons d L' ih =>
    simp only [List.reverse_cons, List.map_append, List.foldl_append, List.map_cons,
      List.map_nil, List.foldl_cons, List.foldl_nil, List.length_cons]
    rw [ih (fun x hx => hL x (List.mem_cons_of_mem _ hx))]
    rw [decDigitChar_toNat d (hL d (List.mem_cons_self _ _))]
    rw [Nat.ofDigits_cons]
    have hsub : 48 + d - 48 = d := by omega
    rw [hsub]
    ring

theorem digitsToNat_natDecimal (n : Nat) : digitsToNat (natDecimal n) = n := by
  unfold natDecimal digitsToNat
  split_ifs with h
  · subst h
    decide
  · rw [foldl_digits_aux _ (fun d hd => Nat.digits_lt_base (by norm_num) hd) 0]
    simp [Nat.ofDigits_digits]

theorem parse_in_hours (n : Nat) (ref : DateTime) :
    parse ("in ".data ++ natDecimal n ++ " hours".data) ref
      = .ok (some (addSecs ref (3600 * n))) := by
  have hnorm : pyNorm ("in ".data ++ natDecimal n ++ " hours".data)
      = "in ".data ++ natDecimal n ++ " hours".data := by
    rw [show " hours".data = " hour".data ++ ['s'] from rfl]
    exact pyNorm_in_shape _ (natDecimal_digits n) _ 's' (by decide) (by decide)
  unfold parse parseCore
  rw [hnorm, parseRelative_hours _ (natDecimal_ne_nil n) (natDecimal_digits n) ref,
    digitsToNat_natDecimal]

theorem parse_in_minutes (n : Nat) (ref : DateTime) :
    parse ("in ".data ++ natDecimal n ++ " minutes".data) ref
      = .ok (some (addSecs ref (60 * n))) := by
  have hnorm : pyNorm ("in ".data ++ natDecimal n ++ " minutes".data)
      = "in ".data ++ natDecimal n ++ " minutes".data := by
    rw [show " minutes".data = " minute".data ++ ['s'] from rfl]
    exact pyNorm_in_shape _ (natDecimal_digits n) _ 's' (by decide) (by decide)
  unfold parse parseCore
  rw [hnorm, parseRelative_minutes _ (natDecimal_ne_nil n) (natDecimal_digits n) ref,
    digitsToNat_natDecimal]

theorem parse_in_days (n : Nat) (ref : DateTime) :
    parse ("in ".data ++ natDecimal n ++ " days".data) ref
      = .ok (some (addSecs ref (86400 * n))) := by
  have hnorm : pyNorm ("in ".data ++ natDecimal n ++ " days".data)
      = "in ".data ++ natDecimal n ++ " days".data := by
    rw [show " days".data = " day".data ++ ['s'] from rfl]
    exact pyNorm_in_shape _ (natDecimal_digits n) _ 's' (by decide) (by decide)
  unfold parse parseCore
  rw [hnorm, parseRelative_days _ (natDecimal_ne_nil n) (natDecimal_digits n) ref,
    digitsToNat_natDecimal]

theorem parse_in_weeks (n : Nat) (ref : DateTime) :
    parse ("in ".data ++ natDecimal n ++ " weeks".data) ref
      = .ok (some (addSecs ref (604800 * n))) := by
  have hnorm : pyNorm ("in ".data ++ natDecimal n ++ " weeks".data)
      = "in ".data ++ natDecimal n ++ " weeks".data := by
    rw [show " weeks".data = " week".data ++ ['s'] from rfl]
    exact pyNorm_in_shape _ (natDecimal_digits n) _ 's' (by decide) (by decide)
  unfold parse parseCore
  rw [hnorm, parseRelative_weeks _ (natDecimal_ne_nil n) (natDecimal_digits n) ref,
    digitsToNat_natDecimal]

theorem parse_in_months (n : Nat) (ref : DateTime) :
    parse ("in ".data ++ natDecimal n ++ " months".data) ref
      = .ok (some (addSecs ref (86400 * (30 * n)))) := by
  have hnorm : pyNorm ("in ".data ++ natDecimal n ++ " months".data)
      = "in ".data ++ natDecimal n ++ " months".data := by
    rw [show " months".data = " month".data ++ ['s'] from rfl]
    exact pyNorm_in_shape _ (natDecimal_digits n) _ 's' (by decide) (by decide)
  unfold parse parseCore
  rw [hnorm, parseRelative_months _ (natDecimal_ne_nil n) (natDecimal_digits n) ref,
    digitsToNat_natDecimal]

/-! ### Weekday resolution -/

theorem nextWeekdayTime_self (ref : DateTime) (n : Nat) (h : pyWeekday ref = n) :
    nextWeekdayTime n ref = setHM (addDays ref 7) 9 0 := by
  unfold nextWeekdayTime
  rw [h]
  simp

/-! ### Subject-column derivation -/

theorem customerColumnsLoop_eq_filter (row : Row) (cols : List Str) :
    customerColumnsLoop row cols = cols.filter (amendedKeep row) := by
  induction cols with
  | nil => rfl
  | cons col rest ih =>
    simp only [customerColumnsLoop, List.filter_cons, amendedKeep, ih]
    by_cases hA : METADATA_KEYWORDS.any (fun kw => containsSub kw (pyLower col)) = true
    · simp [hA]
    · by_cases hB : CATEGORY_KEYWORDS.any (fun kw => decide (pyLower col = kw)) = true
      · simp [hA, hB]
      · simp [hA, hB]
        split_ifs with h1 h2 <;> first | rfl | tauto | simp_all

/-! ### Per-row change comparison -/

theorem mem_addSet (l : List Str) (y x : Str) : x ∈ addSet l y ↔ x ∈ l ∨ x = y := by
  unfold addSet
  split_ifs with h
  · constructor
    · exact fun hx => Or.inl hx
    · rintro (hx | rfl) <;> [exact hx; exact h]
  · simp

theorem mem_foldl_addSet (L : List Change) (init : List Str) (x : Str) :
    x ∈ L.foldl (fun l ch => addSet l ch.customer) init ↔
      x ∈ init ∨ ∃ ch ∈ L, ch.customer = x := by
  induction L generalizing init with
  | nil => simp
  | cons ch rest ih =>
    simp only [List.foldl_cons, ih, mem_addSet]
    constructor
    · rintro ((hx | rfl) | ⟨ch', hch', rfl⟩)
      · exact Or.inl hx
      · exact Or.inr ⟨ch, List.mem_cons_self _ _, rfl⟩
      · exact Or.inr ⟨ch', List.mem_cons_of_mem _ hch', rfl⟩
    · rintro (hx | ⟨ch', hch', rfl⟩)
      · exact Or.inl (Or.inl hx)
      · rcases List.mem_cons.mp hch' with rfl | hm
        · exact Or.inl (Or.inr rfl)
        · exact Or.inr ⟨ch', hm, rfl⟩

theorem foldl_processCustomer (sportsbook : Str) (brow crow : Row)
    (customers : List Str) (rep : ChangeReport) :
    customers.foldl (processCustomer sportsbook brow crow) rep =
      { completions := rep.completions ++
          (rowChanges sportsbook customers brow crow).filter
            (fun ch => ch.new_status = "done".data ∨ ch.new_status = "complete".data),
        vip_flags := rep.vip_flags ++
          (rowChanges sportsbook customers brow crow).filter
            (fun ch => ch.new_status = "vip".data),
        help_needed := rep.help_needed ++
          (rowChanges sportsbook customers brow crow).filter
            (fun ch => ch.new_status = "help".data),
        customers_updated := (rowChanges sportsbook customers brow crow).foldl
          (fun l ch => addSet l ch.customer) rep.customers_updated,
        all_changes := rep.all_changes ++ rowChanges sportsbook customers brow crow } := by
  induction customers generalizing rep with
  | nil => simp [rowChanges]
  | cons customer rest ih =>
    simp only [List.foldl_cons, rowChanges, List.filterMap_cons]
    by_cases h : pyLower (pyStrip (pyGet brow customer))
        ≠ pyLower (pyStrip (pyGet crow customer))
    · simp only [processCustomer, if_pos h, ih, if_neg (not_not.mpr h)]
      simp [rowChanges, h, List.filter_cons]
      constructor <;> [skip; constructor] <;> split_ifs <;> simp
    · simp only [processCustomer, if_neg h, ih, if_pos (not_not.mp h)]
      simp [rowChanges]

theorem mem_rowChanges_iff (sb : Str) (customers : List Str) (brow crow : Row)
    (customer : Str) :
    (∃ ch ∈ rowChanges sb customers brow crow, ch.customer = customer) ↔
      customer ∈ customers ∧
        pyLower (pyStrip (pyGet brow customer))
          ≠ pyLower (pyStrip (pyGet crow customer)) := by
  induction customers with
  | nil => simp [rowChanges]
  | cons a rest ih
  => by_cases h : pyLower (pyStrip (pyGet brow a)) ≠ pyLower (pyStrip (pyGet crow a))
     · simp only [rowChanges, List.filterMap_cons, if_pos h] at *
       simp only [List.mem_cons]
       constructor
       · rintro ⟨ch, hch | hm, hcust⟩
         · subst hch
           exact ⟨Or.inl hcust.symm, by rwa [← hcust]⟩
         · obtain ⟨hmem, hne⟩ := ih.mp ⟨ch, hm, hcust⟩
           exact ⟨Or.inr hmem, hne⟩
       · rintro ⟨rfl | hmem, hne⟩
         · exact ⟨_, Or.inl rfl, rfl⟩
         · obtain ⟨ch, hm, hcust⟩ := ih.mpr ⟨hmem, hne⟩
           exact ⟨ch, Or.inr hm, hcust⟩
     · simp only [rowChanges, List.filterMap_cons, if_neg h] at *
       rw [not_not] at h
       simp only [List.mem_cons]
       constructor
       · rintro ⟨ch, hm, hcust⟩
         obtain ⟨hmem, hne⟩ := ih.mp ⟨ch, hm, hcust⟩
         exact ⟨Or.inr hmem, hne⟩
       · rintro ⟨rfl | hmem, hne⟩
         · exact absurd h hne
         · obtain ⟨ch, hm, hcust⟩ := ih.mpr ⟨hmem, hne⟩
           exact ⟨ch, hm, hcust⟩

/-! ### The analyzer's terminal-status filter -/

theorem mem_allTasksA_addTaskA (l : List (Str × List PendingTask)) (a : Str)
    (t x : PendingTask) :
    x ∈ allTasksA (addTaskA l a t) → x = t ∨ x ∈ allTasksA l := by
  induction l with
  | nil =>
    intro hx
    simp [addTaskA, allTasksA] at hx
    exact Or.inl hx
  | cons p rest ih =>
    obtain ⟨a', ts⟩ := p
    intro hx
    by_cases h : a' = a
    · simp only [addTaskA, if_pos h, allTasksA, List.flatMap_cons] at hx ⊢
      rcases List.mem_append.mp hx with h1 | h2
      · rcases List.mem_append.mp h1 with h3 | h4
        · exact Or.inr (List.mem_append.mpr (Or.inl h3))
        · simp at h4
          exact Or.inl h4
      · exact Or.inr (List.mem_append.mpr (Or.inr h2))
    · simp only [addTaskA, if_neg h, allTasksA, List.flatMap_cons] at hx ⊢
      rcases List.mem_append.mp hx with h1 | h2
      · exact Or.inr (List.mem_append.mpr (Or.inl h1))
      · rcases ih h2 with rfl | hm
        · exact Or.inl rfl
        · exact Or.inr (List.mem_append.mpr (Or.inr hm))

theorem mem_allTasks_addTaskC (m : TaskGroups) (c a : Str) (t x : PendingTask) :
    x ∈ allTasks (addTaskC m c a t) → x = t ∨ x ∈ allTasks m := by
  induction m with
  | nil =>
    intro hx
    simp [addTaskC, allTasks, allTasksA] at hx
    exact Or.inl hx
  | cons p rest ih =>
    obtain ⟨c', l⟩ := p
    intro hx
    by_cases h : c' = c
    · simp only [addTaskC, if_pos h, allTasks, List.flatMap_cons] at hx ⊢
      rcases List.mem_append.mp hx with h1 | h2
      · rcases mem_allTasksA_addTaskA l a t x h1 with rfl | hm
        · exact Or.inl rfl
        · exact Or.inr (List.mem_append.mpr (Or.inl hm))
      · exact Or.inr (List.mem_append.mpr (Or.inr h2))
    · simp only [addTaskC, if_neg h, allTasks, List.flatMap_cons] at hx ⊢
      rcases List.mem_append.mp hx with h1 | h2
      · exact Or.inr (List.mem_append.mpr (Or.inl h1))
      · rcases ih h2 with rfl | hm
        · exact Or.inl rfl
        · exact Or.inr (List.mem_append.mpr (Or.inr hm))

theorem foldl_customer_inv (row : Row) (sb : Str) (det : RowDetails)
    (customers : List Str) (m : TaskGroups)
    (hm : ∀ t ∈ allTasks m,
      pyLower t.status ≠ "done".data ∧ pyLower t.status ≠ "complete".data) :
    ∀ t ∈ allTasks (customers.foldl (fun m' customer =>
        let status := pyStrip (pyGet row customer)
        if pyLower status = "complete".data ∨ pyLower status = "done".data then m'
        else addTaskC m' customer (getActionType status)
          ⟨sb, det.deposit, det.bet_type, status⟩) m),
      pyLower t.status ≠ "done".data ∧ pyLower t.status ≠ "complete".data := by
  induction customers generalizing m with
  | nil => exact hm
  | cons customer rest ih =>
    simp only [List.foldl_cons]
    refine ih _ ?_
    split_ifs with h
    · exact hm
    · push_neg at h
      intro t ht
      rcases mem_allTasks_addTaskC _ _ _ _ _ ht with rfl | hmem
      · exact ⟨h.2, h.1⟩
      · exact hm t hmem

theorem analyzeRowDetails_inv (customers : List Str) (row : Row)
    (det : RowDetails) (m : TaskGroups)
    (hm : ∀ t ∈ allTasks m,
      pyLower t.status ≠ "done".data ∧ pyLower t.status ≠ "complete".data) :
    ∀ t ∈ allTasks (analyzeRowDetails customers row det m),
      pyLower t.status ≠ "done".data ∧ pyLower t.status ≠ "complete".data := by
  obtain ⟨sbOpt, dep, mth, bt⟩ := det
  cases sbOpt with
  | none => exact hm
  | some sb =>
    simp only [analyzeRowDetails]
    split_ifs with h1 h2
    · exact hm
    · exact hm
    · exact foldl_customer_inv row sb ⟨some sb, dep, mth, bt⟩ customers m hm

/-! ### The claims -/

/-- C1: the claim states that for phrases with both a named day and a clock
time, `parse` resolves the day and then overrides the time of day, so that
"tomorrow at 3pm" from 2025-12-16T12:30 yields 2025-12-17T15:00 and
"monday at 10am" from a Tuesday yields the following Monday at 10:00.
In the code, `_parse_specific_day` is consulted before `_parse_combined`
and already succeeds on any phrase containing a day name, so `parse` returns
the day at its default 09:00 and the `_parse_combined` resolver — which does
compute the claimed values — is unreachable. This theorem evaluates `parse`
and `parseCombined` at the claim's own inputs, exhibiting the divergence. -/
theorem c1_combined_day_time_preempted :
    parse "tomorrow at 3pm".data (mkDT 2025 12 16 12 30 0)
      = .ok (some (mkDT 2025 12 17 9 0 0))
    ∧ parse "tomorrow at 3pm".data (mkDT 2025 12 16 12 30 0)
      ≠ .ok (some (mkDT 2025 12 17 15 0 0))
    ∧ parseCombined (pyNorm "tomorrow at 3pm".data) (mkDT 2025 12 16 12 30 0)
      = .ok (some (mkDT 2025 12 17 15 0 0))
    ∧ parse "monday at 10am".data (mkDT 2025 12 16 12 30 0)
      = .ok (some (mkDT 2025 12 22 9 0 0))
    ∧ parse "monday at 10am".data (mkDT 2025 12 16 12 30 0)
      ≠ .ok (some (mkDT 2025 12 22 10 0 0))
    ∧ parseCombined (pyNorm "monday at 10am".data) (mkDT 2025 12 16 12 30 0)
      = .ok (some (mkDT 2025 12 22 10 0 0)) := by
  decide

/-- C2 counterexample: the claim derives subject columns from column NAMES
alone ("regardless of what value the first row's cell holds", with category
names excluded by equality or prefix). On the first row
`{casinoroyale: "hello", Alice: ""}` the code keeps `casinoroyale` (category
exclusion is by exact equality only) and drops `Alice` (its cell value is
empty), while the claimed rule does the opposite; and the divergence is
visible in diff itself: with baseline `{Book: "Fanduel", Alice: ""}` and
current `{Book: "Fanduel", Alice: "vip"}`, the claim makes `Alice` a subject
column, yet `_detect_changes` emits no change at all for her "" to "vip"
transition, because the empty first-row cell excluded the column. -/
theorem c2_counterexample :
    getCustomerColumns [("casinoroyale".data, "hello".data), ("Alice".data, [])]
      ≠ claimedCustomerColumns
          [("casinoroyale".data, "hello".data), ("Alice".data, [])]
    ∧ getCustomerColumns [("casinoroyale".data, "hello".data), ("Alice".data, [])]
      = ["casinoroyale".data]
    ∧ claimedCustomerColumns
          [("casinoroyale".data, "hello".data), ("Alice".data, [])]
      = ["Alice".data]
    ∧ claimedCustomerColumns [("Book".data, "Fanduel".data), ("Alice".data, [])]
      = ["Book".data, "Alice".data]
    ∧ getCustomerColumns [("Book".data, "Fanduel".data), ("Alice".data, [])]
      = ["Book".data]
    ∧ detectChanges [[("Book".data, "Fanduel".data), ("Alice".data, [])]]
        [[("Book".data, "Fanduel".data), ("Alice".data, "vip".data)]]
      = emptyReport := by
  decide

/-- C2 amended: `_get_customer_columns` keeps exactly the columns of the row
whose lower-cased name contains no metadata keyword and exactly equals no
category keyword, and whose cell value in that row, stripped and lower-cased,
is non-empty and contains none of `$`, `debit`, `etransfer` — the
name-based exclusions of the original claim plus a value-based filter, with
category exclusion by equality only. Moreover diff uses exactly this set:
for every non-empty baseline, `_detect_changes` is the row fold over the
amended subject columns of the baseline's first row (and the empty report
when the current snapshot is empty). -/
theorem c2_subject_columns_amended :
    (∀ row : Row, getCustomerColumns row = amendedCustomerColumns row)
    ∧ ∀ (first : Row) (rest current : List Row),
        detectChanges (first :: rest) current
          = if current.isEmpty then emptyReport
            else (first :: rest).foldl
              (processBaselineRow (amendedCustomerColumns first)
                (buildCurrentLookup current)) emptyReport := by
  have hcols : ∀ row : Row, getCustomerColumns row = amendedCustomerColumns row := by
    intro row
    cases row with
    | nil => rfl
    | cons p rest =>
      simp [getCustomerColumns, amendedCustomerColumns, customerColumnsLoop_eq_filter]
  refine ⟨hcols, fun first rest current => ?_⟩
  cases current with
  | nil => rfl
  | cons c cs =>
    unfold detectChanges
    simp only [List.isEmpty_cons, Bool.or_self, Bool.false_eq_true, if_false, hcols]

/-- C3: the claim states `parse("day after tomorrow", ref) = ref + 2 days at
09:00`. The code checks `'tomorrow' in s` before `'day after tomorrow' in s`,
and "day after tomorrow" contains "tomorrow", so the dedicated `+2 days`
branch is unreachable for this phrase: `parse` returns ref + 1 day at 09:00
for every reference instant (shown here), never the claimed +2 days
(refuted at a concrete reference). -/
theorem c3_day_after_tomorrow_bug :
    (∀ ref : DateTime, parse "day after tomorrow".data ref
        = .ok (some (setHM (addDays ref 1) 9 0)))
    ∧ parse "day after tomorrow".data (mkDT 2025 12 16 12 30 0)
      ≠ .ok (some (setHM (addDays (mkDT 2025 12 16 12 30 0) 2) 9 0)) :=
  ⟨fun _ => rfl, by decide⟩

/-- C4: in the per-row comparison of `_detect_changes` (the contribution of a
baseline row matched with a current row), for every subject column a change
is emitted if and only if the trimmed lower-cased baseline and current cells
differ, and every emitted change sits in `completions` iff its new value is
"done" or "complete", in `vip_flags` iff its new value is exactly "vip", in
`help_needed` iff its new value is exactly "help", and always marks its
subject in `customers_updated`. -/
theorem c4_change_classification (sportsbook : Str) (customers : List Str)
    (brow crow : Row) (customer : Str) (hc : customer ∈ customers) :
    ((∃ ch ∈ (rowPairReport sportsbook customers brow crow).all_changes,
        ch.customer = customer) ↔
      pyLower (pyStrip (pyGet brow customer))
        ≠ pyLower (pyStrip (pyGet crow customer)))
    ∧ ∀ ch ∈ (rowPairReport sportsbook customers brow crow).all_changes,
        (ch ∈ (rowPairReport sportsbook customers brow crow).completions ↔
          (ch.new_status = "done".data ∨ ch.new_status = "complete".data))
        ∧ (ch ∈ (rowPairReport sportsbook customers brow crow).vip_flags ↔
            ch.new_status = "vip".data)
        ∧ (ch ∈ (rowPairReport sportsbook customers brow crow).help_needed ↔
            ch.new_status = "help".data)
        ∧ ch.customer ∈ (rowPairReport sportsbook customers brow crow).customers_updated := by
  have hchar := foldl_processCustomer sportsbook brow crow customers emptyReport
  unfold rowPairReport
  rw [hchar]
  simp only [emptyReport]
  constructor
  · rw [List.nil_append, mem_rowChanges_iff]
    exact and_iff_right hc
  · intro ch hch
    rw [List.nil_append] at hch
    refine ⟨?_, ?_, ?_, ?_⟩
    · simp only [List.nil_append, List.mem_filter, decide_eq_true_eq]
      exact and_iff_right hch
    · simp only [List.nil_append, List.mem_filter, decide_eq_true_eq]
      exact and_iff_right hch
    · simp only [List.nil_append, List.mem_filter, decide_eq_true_eq]
      exact and_iff_right hch
    · rw [mem_foldl_addSet]
      exact Or.inr ⟨ch, hch, rfl⟩

/-- C4 witness: the claim's own example — David's cell going from "" to
"vip" — instantiated concretely: the change for David is emitted (the cells
differ), and by the classification equivalences it lies in both `all_changes`
and `vip_flags`. -/
theorem c4_witness :
    "David".data ∈ ["David".data]
    ∧ (((∃ ch ∈ (rowPairReport "Fanduel".data ["David".data]
            demoBaselineRow demoCurrentRow).all_changes,
          ch.customer = "David".data) ↔
        pyLower (pyStrip (pyGet demoBaselineRow "David".data))
          ≠ pyLower (pyStrip (pyGet demoCurrentRow "David".data)))
      ∧ ∀ ch ∈ (rowPairReport "Fanduel".data ["David".data]
            demoBaselineRow demoCurrentRow).all_changes,
          (ch ∈ (rowPairReport "Fanduel".data ["David".data]
              demoBaselineRow demoCurrentRow).completions ↔
            (ch.new_status = "done".data ∨ ch.new_status = "complete".data))
          ∧ (ch ∈ (rowPairReport "Fanduel".data ["David".data]
              demoBaselineRow demoCurrentRow).vip_flags ↔
              ch.new_status = "vip".data)
          ∧ (ch ∈ (rowPairReport "Fanduel".data ["David".data]
              demoBaselineRow demoCurrentRow).help_needed ↔
              ch.new_status = "help".data)
          ∧ ch.customer ∈ (rowPairReport "Fanduel".data ["David".data]
              demoBaselineRow demoCurrentRow).customers_updated)
    ∧ (rowPairReport "Fanduel".data ["David".data]
        demoBaselineRow demoCurrentRow).all_changes
      = [⟨"Fanduel".data, "David".data, [], "vip".data⟩]
    ∧ (rowPairReport "Fanduel".data ["David".data]
        demoBaselineRow demoCurrentRow).vip_flags
      = [⟨"Fanduel".data, "David".data, [], "vip".data⟩] :=
  ⟨by decide,
   c4_change_classification "Fanduel".data ["David".data]
     demoBaselineRow demoCurrentRow "David".data (by decide),
   by decide, by decide⟩

/-- C5: for every non-negative integer N (written in decimal) and every unit,
`parse("in N <unit>s", ref)` adds exactly N times the unit to the reference —
3600 N seconds for hours, 60 N for minutes, 86400 N for days, 604800 N for
weeks — a month being approximated as exactly 30 days; and
`parse("in 0 hours", ref)` returns the reference unchanged. -/
theorem c5_relative_durations (n : Nat) (ref : DateTime) :
    parse ("in ".data ++ natDecimal n ++ " hours".data) ref
      = .ok (some (addSecs ref (3600 * n)))
    ∧ parse ("in ".data ++ natDecimal n ++ " minutes".data) ref
      = .ok (some (addSecs ref (60 * n)))
    ∧ parse ("in ".data ++ natDecimal n ++ " days".data) ref
      = .ok (some (addSecs ref (86400 * n)))
    ∧ parse ("in ".data ++ natDecimal n ++ " weeks".data) ref
      = .ok (some (addSecs ref (604800 * n)))
    ∧ parse ("in ".data ++ natDecimal n ++ " months".data) ref
      = .ok (some (addSecs ref (86400 * (30 * n))))
    ∧ parse "in 0 hours".data ref = .ok (some ref) := by
  refine ⟨parse_in_hours n ref, parse_in_minutes n ref, parse_in_days n ref,
    parse_in_weeks n ref, parse_in_months n ref, ?_⟩
  rw [show "in 0 hours".data = "in ".data ++ natDecimal 0 ++ " hours".data from by decide]
  rw [parse_in_hours 0 ref]
  simp [addSecs]

/-- C6: for every weekday name (or common abbreviation) in the parser's
table and every reference instant whose date falls on that very weekday,
`parse` resolves the name to the same weekday one week later — reference + 7
days at 09:00 — never to the reference day itself. -/
theorem c6_same_weekday_rolls_forward_week :
    ∀ p ∈ weekdayTable, ∀ ref : DateTime, pyWeekday ref = p.2 →
      parse p.1 ref = .ok (some (setHM (addDays ref 7) 9 0)) := by
  intro p hp ref h
  fin_cases hp <;> (rw [← nextWeekdayTime_self ref _ h]; rfl)

/-- C6 witness: "monday" parsed on Monday 2025-12-15 resolves to Monday
2025-12-22 at 09:00. -/
theorem c6_witness :
    (("monday".data, 0) ∈ weekdayTable ∧ pyWeekday (mkDT 2025 12 15 8 0 0) = 0)
    ∧ parse "monday".data (mkDT 2025 12 15 8 0 0)
        = .ok (some (setHM (addDays (mkDT 2025 12 15 8 0 0) 7) 9 0)) :=
  ⟨⟨by decide, by decide⟩,
   c6_same_weekday_rolls_forward_week ("monday".data, 0) (by decide)
     (mkDT 2025 12 15 8 0 0) (by decide)⟩

/-- C7: on an already lower-cased, trimmed status string,
`_get_action_type` agrees with the claim's fixed precedence of checks:
signup for the empty string; verification for exactly "verify"/"verifyfix";
deposit for exactly "deposit"/"signed up ready"; wager for "ready", a
canonical shorthand amount, or a token entirely numeric after stripping
`k`, `$`, `,`; progress for a remaining status containing "week"; vip for
exactly "vip"; other for everything else — exact tokens before the numeric
check before the "week" substring check. -/
theorem c7_classify_precedence (s : Str) (hl : pyLower s = s)
    (ht : pyStrip s = s) :
    getActionType s = classifySpec s := by
  unfold getActionType classifySpec
  rw [hl]
  split_ifs <;> first | rfl | (simp_all; done) | (simp_all; intros; simp_all)

/-- C7 witness: "1k" is lower-cased and trimmed already, and classifies as
`wager` under both the code and the claim's rules. -/
theorem c7_witness :
    (pyLower "1k".data = "1k".data ∧ pyStrip "1k".data = "1k".data)
    ∧ getActionType "1k".data = classifySpec "1k".data
    ∧ getActionType "1k".data = "wager".data :=
  ⟨⟨by decide, by decide⟩,
   c7_classify_precedence "1k".data (by decide) (by decide), by decide⟩

/-- C8: the analyzer's per-subject grouping never contains an entry —
under any subject or any action category — derived from a cell whose trimmed
lower-cased value is "done" or "complete": the terminal-status guard filters
such cells out before classification. (Recorded statuses are the stripped
cells, so their lower-casing is exactly the trimmed lower-cased cell value.) -/
theorem c8_no_terminal_status_categorized (data : List Row) :
    ∀ t ∈ allTasks (analyzeTrackingData data),
      pyLower t.status ≠ "done".data ∧ pyLower t.status ≠ "complete".data := by
  cases data with
  | nil => simp [analyzeTrackingData, allTasks]
  | cons first rest =>
    unfold analyzeTrackingData
    have hfold : ∀ (rows : List Row) (m : TaskGroups),
        (∀ t ∈ allTasks m,
          pyLower t.status ≠ "done".data ∧ pyLower t.status ≠ "complete".data) →
        ∀ t ∈ allTasks (rows.foldl
            (analyzeRow (first.map (·.1)) (schedCustomerColumns (first.map (·.1)))) m),
          pyLower t.status ≠ "done".data ∧ pyLower t.status ≠ "complete".data := by
      intro rows
      induction rows with
      | nil => exact fun m hm => hm
      | cons row rrest ih =>
        intro m hm
        exact ih _ (analyzeRowDetails_inv _ _ _ _ hm)
    exact hfold (first :: rest) [] (by simp [allTasks])

/-- C8 witness: a concrete snapshot whose analysis records David's "verify"
task; that recorded entry is not a terminal status. -/
theorem c8_witness :
    (⟨"Fanduel".data, [], [], "verify".data⟩ : PendingTask) ∈
      allTasks (analyzeTrackingData
        [[("Book".data, "Fanduel".data), ("David".data, "verify".data)]])
    ∧ pyLower ("verify".data) ≠ "done".data
    ∧ pyLower ("verify".data) ≠ "complete".data :=
  ⟨by decide,
   c8_no_terminal_status_categorized
     [[("Book".data, "Fanduel".data), ("David".data, "verify".data)]]
     ⟨"Fanduel".data, [], [], "verify".data⟩ (by decide)⟩

/-- C9 counterexample: the parser CAN raise for malformed input — on
"at 99" the clock-time regex matches with hour 99 and `datetime.replace`
raises `ValueError`, which `parse` does not catch. -/
theorem c9_counterexample :
    parse "at 99".data (mkDT 2025 12 16 12 30 0) = .raised := by
  decide

/-- C9 amended: for every input on which all four pattern families fail,
`parse` returns the failure sentinel (no timestamp, no exception) — in
particular for "whenever" — and the change detector returns the empty report
on an empty baseline or empty current snapshot; but `parse` may raise when
the clock-time family matches with an out-of-range hour or minute. -/
theorem c9_failure_sentinels :
    (∀ (s : Str) (ref : DateTime),
        parseRelative (pyNorm s) ref = none →
        parseSpecificDay (pyNorm s) ref = none →
        parseTimeOfDay (pyNorm s) ref = .ok none →
        parseCombined (pyNorm s) ref = .ok none →
        parse s ref = .ok none)
    ∧ (∀ ref : DateTime, parse "whenever".data ref = .ok none)
    ∧ (∀ current : List Row, detectChanges [] current = emptyReport)
    ∧ (∀ baseline : List Row, detectChanges baseline [] = emptyReport) := by
  refine ⟨fun s ref h1 h2 h3 h4 => ?_, fun ref => rfl, fun current => rfl,
    fun baseline => by cases baseline <;> rfl⟩
  simp only [parse, parseCore, h1, h2, h3, h4]

/-- C9 witness: all four families fail on "whenever", and `parse` returns
the sentinel there. -/
theorem c9_witness :
    (parseRelative (pyNorm "whenever".data) (mkDT 2025 12 16 12 30 0) = none
     ∧ parseSpecificDay (pyNorm "whenever".data) (mkDT 2025 12 16 12 30 0) = none
     ∧ parseTimeOfDay (pyNorm "whenever".data) (mkDT 2025 12 16 12 30 0) = .ok none
     ∧ parseCombined (pyNorm "whenever".data) (mkDT 2025 12 16 12 30 0) = .ok none)
    ∧ parse "whenever".data (mkDT 2025 12 16 12 30 0) = .ok none :=
  ⟨⟨by decide, by decide, by decide, by decide⟩,
   c9_failure_sentinels.1 "whenever".data (mkDT 2025 12 16 12 30 0)
     (by decide) (by decide) (by decide) (by decide)⟩

/-- C10 counterexample: the claim's time-of-day rule (14:00 whenever the
string contains "afternoon") ignores that the code checks "morning" first:
on "tom morning or afternoon" the code returns 09:00, not the claimed
14:00. -/
theorem c10_counterexample :
    parse "tom morning or afternoon".data (mkDT 2025 12 16 12 30 0)
      = .ok (some (mkDT 2025 12 17 9 0 0))
    ∧ parse "tom morning or afternoon".data (mkDT 2025 12 16 12 30 0)
      ≠ .ok (some (mkDT 2025 12 17 14 0 0)) := by
  decide

/-- C10 amended: for every input on which the relative-duration family fails,
not containing "today" but containing the letter sequence "tom" anywhere —
including inside an unrelated word such as "automate", since matching is by
substring containment — `parse` returns reference + 1 day, with time of day
09:00 if the string contains "morning" (checked first), else 14:00 if it
contains "afternoon", else 18:00 if it contains "evening" or "night",
else 09:00. -/
theorem c10_tom_substring_tomorrow (s : Str) (ref : DateTime)
    (h1 : parseRelative (pyNorm s) ref = none)
    (h2 : containsSub "today".data (pyNorm s) = false)
    (h3 : containsSub "tom".data (pyNorm s) = true) :
    parse s ref = .ok (some (setHM (addDays ref 1)
      (if containsSub "morning".data (pyNorm s) then 9
       else if containsSub "afternoon".data (pyNorm s) then 14
       else if containsSub "evening".data (pyNorm s)
           || containsSub "night".data (pyNorm s) then 18
       else 9) 0)) := by
  simp only [parse, parseCore, parseSpecificDay, h1, h2, h3, Bool.or_true, if_true,
    Bool.false_eq_true, if_false]
  split_ifs <;> rfl

/-- C10 witness: "automate" contains "tom" as a substring, matches nothing
else, and parses to the next day at 09:00. -/
theorem c10_witness :
    (parseRelative (pyNorm "automate".data) (mkDT 2025 12 16 12 30 0) = none
     ∧ containsSub "today".data (pyNorm "automate".data) = false
     ∧ containsSub "tom".data (pyNorm "automate".data) = true)
    ∧ parse "automate".data (mkDT 2025 12 16 12 30 0)
        = .ok (some (setHM (addDays (mkDT 2025 12 16 12 30 0) 1) 9 0)) :=
  ⟨⟨by decide, by decide, by decide⟩, by
    rw [c10_tom_substring_tomorrow "automate".data (mkDT 2025 12 16 12 30 0)
      (by decide) (by decide) (by decide)]
    decide⟩
